import Mathlib

/-!
Verification development for `src/app.js`: a browser tool that captures
webcam frames, embeds them with a frozen MobileNet model, accumulates the
embedding vectors in two per-class buckets, trains a small dense classifier
on them, and runs a timer-driven live-prediction loop.

The embedding models the module-level mutable state of `app.js`
(`embeddingsA`, `embeddingsB`, `classifierModel`, `predictInterval`, the
enabled/disabled state of the buttons, the status text) as a record, and the
five user-triggerable handlers plus timer firings as a step function on that
record.  Feature vectors are lists of rationals (the embedding extractor is
external; a capture event carries the vector it produced).  DOM-only effects
(thumbnail galleries, preview canvas, percentage bars) are not part of the
state; the observable side channels the spec talks about (alerts, per-epoch
progress notifications, the start of a prediction cycle) are modelled as an
output-event list produced by each step.
-/

namespace App

/-- Activation kinds that `buildModel` in `app.js` uses. -/
inductive Activation where
  | relu
  | softmax
deriving DecidableEq, Repr

/-- One layer specification, mirroring the `tf.layers.dense` /
`tf.layers.dropout` calls in `buildModel` (app.js lines 85-87). -/
inductive LayerSpec where
  | dense (units : Nat) (activation : Activation) (inputShape : Option Nat)
  | dropout (rate : ℚ)
deriving DecidableEq, Repr

/-- Optimizer configuration, mirroring `tf.train.adam(0.0005)`. -/
inductive Optimizer where
  | adam (learningRate : ℚ)
deriving DecidableEq, Repr

/-- Loss configuration, mirroring the categoricalCrossentropy loss option. -/
inductive LossKind where
  | categoricalCrossentropy
deriving DecidableEq, Repr

/-- The architecture and compile options of the sequential model built by
`buildModel` (app.js lines 83-94). -/
structure ModelCfg where
  layers : List LayerSpec
  optimizer : Optimizer
  loss : LossKind
  metrics : List String
deriving DecidableEq, Repr

/-- `buildModel(inputSize)` from app.js lines 83-94: dense(128, relu) with
the given input shape, dropout(0.25), dense(2, softmax); compiled with
adam(0.0005), categorical cross-entropy and an accuracy metric. -/
def buildModel (inputSize : Nat) : ModelCfg :=
  { layers := [ .dense 128 .relu (some inputSize),
                .dropout (1/4),
                .dense 2 .softmax none ],
    optimizer := .adam (1/2000),
    loss := .categoricalCrossentropy,
    metrics := ["accuracy"] }

/-- The classifier object held in the `classifierModel` variable: its
architecture plus how many fitting epochs have run on it (0 right after
`buildModel`, 25 once `fit` has completed). -/
structure Classifier where
  cfg : ModelCfg
  epochsTrained : Nat
deriving DecidableEq, Repr

/-- The `fit` options passed at app.js lines 113-121. -/
structure FitCfg where
  epochs : Nat
  shuffle : Bool
deriving DecidableEq, Repr

/-- `epochs: 25, shuffle: true` from the `classifierModel.fit` call. -/
def fitConfig : FitCfg := { epochs := 25, shuffle := true }

/-- The module-level mutable state of app.js: the two sample buckets
(lines 28-29), the classifier reference (line 27), the interval handle
(line 30), the disabled flags of the three stateful buttons, and the status
text.  `nextTimerId`/`activeTimers` model the interval table of the host:
`setInterval` returns a fresh id and registers it, `clearInterval` removes
one, and a timer can fire only while registered. -/
structure AppState where
  embeddingsA : List (List ℚ)
  embeddingsB : List (List ℚ)
  classifierModel : Option Classifier
  predictInterval : Option Nat
  nextTimerId : Nat
  activeTimers : List Nat
  trainDisabled : Bool
  startDisabled : Bool
  stopDisabled : Bool
  status : String
deriving DecidableEq, Repr

/-- Modelled from the spec: the initial enabled/disabled state of the three
buttons is set by the HTML document, which is not under `src/`.  The spec
says the start control is enabled only once a training completes (app.js
line 127 is the only place that enables it) and the stop control only while
predicting (line 134), while the train control starts enabled. -/
def init : AppState :=
  { embeddingsA := []
    embeddingsB := []
    classifierModel := none
    predictInterval := none
    nextTimerId := 0
    activeTimers := []
    trainDisabled := false
    startDisabled := true
    stopDisabled := true
    status := "" }

/-- Input events: a click on one of the five buttons (a capture click
carries the feature vector the external embedding extractor produced for
the captured frame), or the firing of interval timer `id`. -/
inductive Ev where
  | clickCaptureA (v : List ℚ)
  | clickCaptureB (v : List ℚ)
  | clickTrain
  | clickStart
  | clickStop
  | tick (id : Nat)
deriving DecidableEq, Repr

/-- Observable output events of one step: a blocking `alert` dialog, one
per-epoch progress notification (the `onEpochEnd` callback at app.js
lines 117-119, carrying epoch index, loss and accuracy), or the start of
one live-prediction cycle (the body of the `setInterval` callback). -/
inductive OutEv where
  | alert (msg : String)
  | epochEnd (epoch : Nat) (loss acc : ℚ)
  | cycleStart (id : Nat)
deriving DecidableEq, Repr

/-- The handler for a class-A capture click (app.js lines 67-72): append
the embedding to `embeddingsA` and update the status text. -/
def captureAStep (v : List ℚ) (s : AppState) : AppState :=
  { s with embeddingsA := s.embeddingsA ++ [v],
           status := "Class A samples: " ++ toString (s.embeddingsA.length + 1) }

/-- The handler for a class-B capture click (app.js lines 75-80). -/
def captureBStep (v : List ℚ) (s : AppState) : AppState :=
  { s with embeddingsB := s.embeddingsB ++ [v],
           status := "Class B samples: " ++ toString (s.embeddingsB.length + 1) }

/-- `xs.shape[1]`: the dimensionality of the stacked training tensor, i.e.
the length of the first accumulated embedding vector. -/
def inputDim (s : AppState) : Nat :=
  ((s.embeddingsA ++ s.embeddingsB).headD []).length

/-- The state reached by the train handler after app.js line 112, i.e.
after the insufficient-data check has passed: the train button is disabled
(line 103), and `classifierModel` has been overwritten with the freshly
built, completely untrained model (line 110) — before any fitting epoch has
run. -/
def trainPrepare (s : AppState) : AppState :=
  { s with trainDisabled := true,
           classifierModel := some { cfg := buildModel (inputDim s),
                                     epochsTrained := 0 },
           status := "Training..." }

/-- Modelled from the spec: `tf.Model.fit` is external framework code; the
spec fixes its observable behaviour as exactly `epochs` (25) fitting epochs
with one `onEpochEnd` progress notification per epoch, in increasing epoch
order, with no early stopping.  `logs` abstracts the framework-computed
loss/accuracy values of each epoch. -/
def fitOutputs (logs : Nat → ℚ × ℚ) : List OutEv :=
  (List.range fitConfig.epochs).map (fun i => .epochEnd i (logs i).1 (logs i).2)

/-- The state after `await classifierModel.fit(...)` returns and the
handler finishes (app.js lines 113-128): the same classifier object, now
fitted for the full 25 epochs; status set to the done message; the start
button enabled; the train button re-enabled. -/
def fitFinish (s : AppState) : AppState :=
  { s with classifierModel :=
             s.classifierModel.map (fun c => { c with epochsTrained := fitConfig.epochs }),
           status := "Training Done! Start Prediction.",
           startDisabled := false,
           trainDisabled := false }

/-- The train-click handler (app.js lines 97-129): if fewer than 10 total
samples are stored it alerts and returns without touching anything; else it
rebuilds `classifierModel` and fits it, emitting one progress notification
per epoch. -/
def trainStep (logs : Nat → ℚ × ℚ) (s : AppState) : AppState × List OutEv :=
  if s.embeddingsA.length + s.embeddingsB.length < 10 then
    (s, [.alert "At least 10 total images needed (example: 5A + 5B)"])
  else
    (fitFinish (trainPrepare s), fitOutputs logs)

/-- The start-prediction handler (app.js lines 132-158): disables start,
enables stop, and unconditionally calls `setInterval`, overwriting
`predictInterval` with the fresh timer id.  Note there is no guard on
`predictInterval` or `classifierModel` inside the handler. -/
def startStep (s : AppState) : AppState × List OutEv :=
  ({ s with startDisabled := true,
            stopDisabled := false,
            status := "Predicting Live...",
            predictInterval := some s.nextTimerId,
            activeTimers := s.activeTimers ++ [s.nextTimerId],
            nextTimerId := s.nextTimerId + 1 }, [])

/-- The stop-prediction handler (app.js lines 161-167): if `predictInterval`
is non-null, `clearInterval` it; null the reference; re-enable start,
disable stop, set the stopped status. -/
def stopStep (s : AppState) : AppState × List OutEv :=
  ({ s with activeTimers :=
              match s.predictInterval with
              | some id => s.activeTimers.filter (fun j => j ≠ id)
              | none => s.activeTimers,
            predictInterval := none,
            startDisabled := false,
            stopDisabled := true,
            status := "Stopped." }, [])

/-- A firing of interval timer `id`: the host runs the registered callback
(one live-prediction cycle) only while the timer is still registered; a
cleared timer never fires again.  The cycle itself only reads state and
renders, so the modelled state is unchanged. -/
def tickStep (id : Nat) (s : AppState) : AppState × List OutEv :=
  if id ∈ s.activeTimers then (s, [.cycleStart id]) else (s, [])

/-- One step of the whole app.  A click on a disabled button dispatches no
event at all (standard browser semantics), so the three guarded handlers
run only while their button is enabled. -/
def step (logs : Nat → ℚ × ℚ) (s : AppState) : Ev → AppState × List OutEv
  | .clickCaptureA v => (captureAStep v s, [])
  | .clickCaptureB v => (captureBStep v s, [])
  | .clickTrain => if s.trainDisabled then (s, []) else trainStep logs s
  | .clickStart => if s.startDisabled then (s, []) else startStep s
  | .clickStop => if s.stopDisabled then (s, []) else stopStep s
  | .tick id => tickStep id s

/-- Run a sequence of events from a state. -/
def run (logs : Nat → ℚ × ℚ) (s : AppState) : List Ev → AppState
  | [] => s
  | e :: evs => run logs (step logs s e).1 evs

/-- All outputs emitted while running a sequence of events from a state. -/
def trace (logs : Nat → ℚ × ℚ) (s : AppState) : List Ev → List OutEv
  | [] => []
  | e :: evs => (step logs s e).2 ++ trace logs (step logs s e).1 evs

/-- The label list built at app.js line 107: one `0` per class-A sample
followed by one `1` per class-B sample. -/
def trainLabels (nA nB : Nat) : List Nat :=
  List.replicate nA 0 ++ List.replicate nB 1

/-- `tf.oneHot(labels, 2)` (app.js line 108): label `i` becomes the length-
`depth` vector with a `1` in position `i` and `0` elsewhere. -/
def oneHot (depth : Nat) (i : Nat) : List ℚ :=
  (List.range depth).map (fun j => if j = i then 1 else 0)

/-- The one-hot training targets `ys` of app.js lines 107-108. -/
def trainYs (nA nB : Nat) : List (List ℚ) :=
  (trainLabels nA nB).map (oneHot 2)

/-!
Numeric semantics of inference.  The tensor arithmetic is performed by the
external framework; the definitions below are modelled from the spec (and
the standard meaning of the layers `buildModel` stacks): a dense layer is an
affine map, rectified-linear clamps negatives to zero, dropout is the
identity at inference time, and softmax divides the exponential of each
logit by the sum of all the exponentials.  Arithmetic is exact over ℚ and
the exponential is an abstract strictly-positive function, standing in for
the floating-point `exp`.
-/

/-- Rectified-linear activation. -/
def relu (x : ℚ) : ℚ := max x 0

/-- Dot product of a weight row with an input vector. -/
def dot (w x : List ℚ) : ℚ := (List.zipWith (· * ·) w x).sum

/-- A dense (affine) layer: one output per (row, bias) pair. -/
def denseApply (w : List (List ℚ)) (b : List ℚ) (x : List ℚ) : List ℚ :=
  List.zipWith (fun row bi => dot row x + bi) w b

/-- Dropout at inference time is the identity (it is active only during
training, as the spec states). -/
def dropoutInfer (x : List ℚ) : List ℚ := x

/-- Softmax with respect to an abstract exponential `e`. -/
def softmax (e : ℚ → ℚ) (z : List ℚ) : List ℚ :=
  z.map (fun zi => e zi / (z.map e).sum)

/-- The trained weights of the two dense layers of `buildModel`. -/
structure ClassifierWeights where
  w1 : List (List ℚ)
  b1 : List ℚ
  w2 : List (List ℚ)
  b2 : List ℚ
deriving DecidableEq, Repr

/-- The output layer of a model configuration has `u` softmax units when
its last layer is `dense u softmax`. -/
def outputSoftmaxUnits (cfg : ModelCfg) : Option Nat :=
  match cfg.layers.getLast? with
  | some (.dense u .softmax _) => some u
  | _ => none

/-- Weights conform to a configuration when the output dense layer has
exactly as many (row, bias) pairs as the output units of the configuration. -/
def conforms (cfg : ModelCfg) (p : ClassifierWeights) : Prop :=
  outputSoftmaxUnits cfg = some p.w2.length ∧ p.w2.length = p.b2.length

/-- Inference through the `buildModel` architecture: hidden dense layer with
rectified-linear activation, dropout (identity at inference), output dense
layer, softmax. -/
def predict (e : ℚ → ℚ) (p : ClassifierWeights) (x : List ℚ) : List ℚ :=
  softmax e (denseApply p.w2 p.b2 (dropoutInfer ((denseApply p.w1 p.b1 x).map relu)))

/-- Number of class-A capture clicks in an event sequence. -/
def countA (evs : List Ev) : Nat :=
  evs.countP (fun e => match e with | .clickCaptureA _ => true | _ => false)

/-- Number of class-B capture clicks in an event sequence. -/
def countB (evs : List Ev) : Nat :=
  evs.countP (fun e => match e with | .clickCaptureB _ => true | _ => false)

/-- An event is a capture click (of either class). -/
def isCapture : Ev → Bool
  | .clickCaptureA _ => true
  | .clickCaptureB _ => true
  | _ => false

/-- A fixed loss/accuracy trace used to instantiate theorems at concrete
inputs. -/
def logs0 : Nat → ℚ × ℚ := fun _ => (0, 0)

/-- Ten class-A captures: enough samples for the train check to pass. -/
def capture10 : List Ev := List.replicate 10 (.clickCaptureA [1])

/-- Capture ten samples, train, and start the live predictor. -/
def demoStartTrace : List Ev := capture10 ++ [Ev.clickTrain, Ev.clickStart]

/-- The state with ten class-A samples captured, ready to train. -/
def demoReady : AppState := run logs0 init capture10

/-- The state with the live predictor running (timer 0 active). -/
def demoRunning : AppState := run logs0 init demoStartTrace

end App

namespace App

/-- Each step leaves the two sample buckets as they were with zero or more
vectors appended at the end: nothing is ever removed or modified. -/
theorem step_buckets_append (logs : Nat → ℚ × ℚ) (s : AppState) (e : Ev) :
    ∃ ta tb, (step logs s e).1.embeddingsA = s.embeddingsA ++ ta ∧
             (step logs s e).1.embeddingsB = s.embeddingsB ++ tb := by
  cases e with
  | clickCaptureA v => exact ⟨[v], [], rfl, by simp [step, captureAStep]⟩
  | clickCaptureB v => exact ⟨[], [v], by simp [step, captureBStep], rfl⟩
  | clickTrain =>
      refine ⟨[], [], ?_, ?_⟩ <;>
        · simp only [step, trainStep]
          split
          · simp
          · split <;> simp [fitFinish, trainPrepare]
  | clickStart =>
      refine ⟨[], [], ?_, ?_⟩ <;>
        · simp only [step]
          split <;> simp [startStep]
  | clickStop =>
      refine ⟨[], [], ?_, ?_⟩ <;>
        · simp only [step]
          split <;> simp [stopStep]
  | tick id =>
      refine ⟨[], [], ?_, ?_⟩ <;>
        · simp only [step, tickStep]
          split <;> simp

/-- Auxiliary to C4: over a sequence of capture clicks, the length
of each bucket grows by exactly the number of captures of its class. -/
theorem run_capture_counts (logs : Nat → ℚ × ℚ) :
    ∀ (evs : List Ev) (s : AppState), (∀ e ∈ evs, isCapture e = true) →
      (run logs s evs).embeddingsA.length = s.embeddingsA.length + countA evs ∧
      (run logs s evs).embeddingsB.length = s.embeddingsB.length + countB evs := by
  intro evs
  induction evs with
  | nil => intro s _; simp [run, countA, countB]
  | cons e evs ih =>
      intro s h
      have he : isCapture e = true := h e (by simp)
      have hrest : ∀ e ∈ evs, isCapture e = true := fun x hx => h x (by simp [hx])
      cases e with
      | clickCaptureA v =>
          have H := ih (captureAStep v s) hrest
          refine ⟨?_, ?_⟩
          · show (run logs (captureAStep v s) evs).embeddingsA.length = _
            rw [H.1]
            simp [captureAStep, countA, List.countP_cons]
            omega
          · show (run logs (captureAStep v s) evs).embeddingsB.length = _
            rw [H.2]
            simp [captureAStep, countB, List.countP_cons]
      | clickCaptureB v =>
          have H := ih (captureBStep v s) hrest
          refine ⟨?_, ?_⟩
          · show (run logs (captureBStep v s) evs).embeddingsA.length = _
            rw [H.1]
            simp [captureBStep, countA, List.countP_cons]
          · show (run logs (captureBStep v s) evs).embeddingsB.length = _
            rw [H.2]
            simp [captureBStep, countB, List.countP_cons]
            omega
      | clickTrain => simp [isCapture] at he
      | clickStart => simp [isCapture] at he
      | clickStop => simp [isCapture] at he
      | tick id => simp [isCapture] at he

/-- C8: under every operation of the program the two sample buckets grow
monotonically: each step leaves each bucket equal to its old value with
zero or more vectors appended at the end (insertion order preserved,
nothing removed or modified), and no step empties a non-empty bucket. -/
theorem C8_buckets_monotonic (logs : Nat → ℚ × ℚ) (s : AppState) (e : Ev) :
    (∃ ta, (step logs s e).1.embeddingsA = s.embeddingsA ++ ta) ∧
    (∃ tb, (step logs s e).1.embeddingsB = s.embeddingsB ++ tb) ∧
    (s.embeddingsA ≠ [] → (step logs s e).1.embeddingsA ≠ []) ∧
    (s.embeddingsB ≠ [] → (step logs s e).1.embeddingsB ≠ []) := by
  obtain ⟨ta, tb, ha, hb⟩ := step_buckets_append logs s e
  refine ⟨⟨ta, ha⟩, ⟨tb, hb⟩, ?_, ?_⟩
  · intro hne
    rw [ha]
    simpa using fun h _ => hne h
  · intro hne
    rw [hb]
    simpa using fun h _ => hne h

/-- Witness for C8 at a concrete state and event. -/
theorem C8_buckets_monotonic_witness :
    (∃ ta, (step logs0 (run logs0 init [Ev.clickCaptureA [1], Ev.clickCaptureB [2]])
              Ev.clickTrain).1.embeddingsA =
           (run logs0 init [Ev.clickCaptureA [1], Ev.clickCaptureB [2]]).embeddingsA ++ ta) ∧
    (∃ tb, (step logs0 (run logs0 init [Ev.clickCaptureA [1], Ev.clickCaptureB [2]])
              Ev.clickTrain).1.embeddingsB =
           (run logs0 init [Ev.clickCaptureA [1], Ev.clickCaptureB [2]]).embeddingsB ++ tb) ∧
    (step logs0 (run logs0 init [Ev.clickCaptureA [1], Ev.clickCaptureB [2]])
       Ev.clickTrain).1.embeddingsA ≠ [] ∧
    (step logs0 (run logs0 init [Ev.clickCaptureA [1], Ev.clickCaptureB [2]])
       Ev.clickTrain).1.embeddingsB ≠ [] := by
  have h := C8_buckets_monotonic logs0
    (run logs0 init [Ev.clickCaptureA [1], Ev.clickCaptureB [2]]) Ev.clickTrain
  exact ⟨h.1, h.2.1, h.2.2.1 (by decide), h.2.2.2 (by decide)⟩

/-- C4: after any sequence of capture clicks (interleaved arbitrarily
between the two classes), the per-class sample counts equal exactly the
number of class-A captures and the number of class-B captures performed. -/
theorem C4_capture_counts (logs : Nat → ℚ × ℚ) (evs : List Ev)
    (h : ∀ e ∈ evs, isCapture e = true) :
    (run logs init evs).embeddingsA.length = countA evs ∧
    (run logs init evs).embeddingsB.length = countB evs := by
  have H := run_capture_counts logs evs init h
  simpa [init] using H

/-- Witness for C4 on an interleaved concrete capture sequence. -/
theorem C4_capture_counts_witness :
    (run logs0 init [Ev.clickCaptureA [1], Ev.clickCaptureB [2], Ev.clickCaptureA [3]]).embeddingsA.length = 2 ∧
    (run logs0 init [Ev.clickCaptureA [1], Ev.clickCaptureB [2], Ev.clickCaptureA [3]]).embeddingsB.length = 1 := by
  have h := C4_capture_counts logs0
    [Ev.clickCaptureA [1], Ev.clickCaptureB [2], Ev.clickCaptureA [3]] (by decide)
  simpa [countA, countB] using h

/-- C1: a train click on a state with fewer than 10 total samples emits the
blocking insufficient-data alert and returns the state completely
unchanged: no training runs, no progress notification is emitted, and the
classifier reference and both sample buckets are untouched. -/
theorem C1_insufficient_data (logs : Nat → ℚ × ℚ) (s : AppState)
    (hen : s.trainDisabled = false)
    (h10 : s.embeddingsA.length + s.embeddingsB.length < 10) :
    step logs s Ev.clickTrain =
      (s, [OutEv.alert "At least 10 total images needed (example: 5A + 5B)"]) ∧
    (∀ o ∈ (step logs s Ev.clickTrain).2, ∀ i l a, o ≠ OutEv.epochEnd i l a) ∧
    (step logs s Ev.clickTrain).1.classifierModel = s.classifierModel ∧
    (step logs s Ev.clickTrain).1.embeddingsA = s.embeddingsA ∧
    (step logs s Ev.clickTrain).1.embeddingsB = s.embeddingsB := by
  have hstep : step logs s Ev.clickTrain =
      (s, [OutEv.alert "At least 10 total images needed (example: 5A + 5B)"]) := by
    simp [step, hen, trainStep, h10]
  refine ⟨hstep, ?_, ?_, ?_, ?_⟩ <;> rw [hstep]
  intro o ho i l a
  simp at ho
  simp [ho]

/-- Witness for C1 at the initial state (zero samples). -/
theorem C1_insufficient_data_witness :
    step logs0 init Ev.clickTrain =
      (init, [OutEv.alert "At least 10 total images needed (example: 5A + 5B)"]) := by
  exact (C1_insufficient_data logs0 init (by decide) (by decide)).1

/-- C9: when the train click passes the minimum-sample check, the handler
factors through `trainPrepare`, whose state holds a freshly built model
with zero epochs trained in the classifier reference — before any fitting
epoch runs — and that fresh reference does not depend on the previously
stored classifier, so an interruption of the fit leaves the untrained model
and never restores the previous classifier. -/
theorem C9_overwrite_before_fit (logs : Nat → ℚ × ℚ) (s : AppState)
    (hen : s.trainDisabled = false)
    (h10 : ¬ s.embeddingsA.length + s.embeddingsB.length < 10) :
    (step logs s Ev.clickTrain).1 = fitFinish (trainPrepare s) ∧
    (trainPrepare s).classifierModel =
      some { cfg := buildModel (inputDim s), epochsTrained := 0 } ∧
    ∀ c : Option Classifier,
      (trainPrepare { s with classifierModel := c }).classifierModel =
        (trainPrepare s).classifierModel := by
  refine ⟨?_, rfl, fun c => rfl⟩
  simp [step, hen, trainStep, h10]

/-- Witness for C9 at the ten-sample state. -/
theorem C9_overwrite_before_fit_witness :
    (step logs0 demoReady Ev.clickTrain).1 = fitFinish (trainPrepare demoReady) ∧
    (trainPrepare demoReady).classifierModel =
      some { cfg := buildModel (inputDim demoReady), epochsTrained := 0 } := by
  have h := C9_overwrite_before_fit logs0 demoReady (by decide) (by decide)
  exact ⟨h.1, h.2.1⟩

/-- In every reachable state, a null interval reference implies the stop
button is disabled (a stop click therefore dispatches nothing at all). -/
def StopInv (s : AppState) : Prop :=
  s.predictInterval = none → s.stopDisabled = true

theorem stopInv_step (logs : Nat → ℚ × ℚ) (s : AppState) (e : Ev)
    (h : StopInv s) : StopInv (step logs s e).1 := by
  cases e with
  | clickCaptureA v => exact fun hi => h hi
  | clickCaptureB v => exact fun hi => h hi
  | clickTrain =>
      simp only [step, trainStep]
      split
      · exact h
      · split
        · exact h
        · exact fun hi => h hi
  | clickStart =>
      simp only [step]
      split
      · exact h
      · intro hi
        simp [startStep] at hi
  | clickStop =>
      simp only [step]
      split
      · exact h
      · intro _
        rfl
  | tick id =>
      simp only [step, tickStep]
      split
      · exact h
      · exact h

theorem stopInv_run (logs : Nat → ℚ × ℚ) (evs : List Ev) :
    StopInv (run logs init evs) := by
  have H : ∀ (l : List Ev) (s : AppState), StopInv s → StopInv (run logs s l) := by
    intro l
    induction l with
    | nil => exact fun s h => h
    | cons e l ih => exact fun s h => ih (step logs s e).1 (stopInv_step logs s e h)
  exact H evs init (fun _ => rfl)

/-- C10: stop is idempotent.  In any reachable state whose timer reference
is null, a stop click performs no cancellation and leaves the whole state
(and output) identical; and from any state, clicking stop twice leaves the
same state as clicking it once, with no outputs either time. -/
theorem C10_stop_idempotent (logs : Nat → ℚ × ℚ) :
    (∀ evs : List Ev, (run logs init evs).predictInterval = none →
        step logs (run logs init evs) Ev.clickStop = (run logs init evs, [])) ∧
    (∀ s : AppState,
        (step logs (step logs s Ev.clickStop).1 Ev.clickStop).1 =
          (step logs s Ev.clickStop).1 ∧
        (step logs s Ev.clickStop).2 = []) := by
  constructor
  · intro evs hnone
    have hdis : (run logs init evs).stopDisabled = true := stopInv_run logs evs hnone
    simp [step, hdis]
  · intro s
    constructor
    · by_cases hdis : s.stopDisabled = true
      · simp [step, hdis]
      · simp only [Bool.not_eq_true] at hdis
        simp [step, hdis, stopStep]
    · by_cases hdis : s.stopDisabled = true
      · simp [step, hdis]
      · simp only [Bool.not_eq_true] at hdis
        simp [step, hdis, stopStep]

/-- Witness for C10: the initial state has a null timer reference and stop
is a complete no-op there; double stop from the running state equals a
single stop. -/
theorem C10_stop_idempotent_witness :
    step logs0 (run logs0 init []) Ev.clickStop = (run logs0 init [], []) ∧
    (step logs0 (step logs0 demoRunning Ev.clickStop).1 Ev.clickStop).1 =
      (step logs0 demoRunning Ev.clickStop).1 := by
  exact ⟨(C10_stop_idempotent logs0).1 [] (by decide),
         ((C10_stop_idempotent logs0).2 demoRunning).1⟩

/-- C5: a successful train click constructs the classifier with exactly one
hidden dense layer of 128 rectified-linear units, a dropout layer of rate
0.25, and a 2-unit softmax output layer, and the one-hot label encoding
maps every class-A sample to [1,0] and every class-B sample to [0,1]. -/
theorem C5_architecture_and_labels :
    (∀ n : Nat, (buildModel n).layers =
        [LayerSpec.dense 128 Activation.relu (some n),
         LayerSpec.dropout (1/4),
         LayerSpec.dense 2 Activation.softmax none]) ∧
    (∀ nA nB : Nat, trainYs nA nB =
        List.replicate nA [1, 0] ++ List.replicate nB [0, 1]) ∧
    (∀ (logs : Nat → ℚ × ℚ) (s : AppState), s.trainDisabled = false →
        ¬ s.embeddingsA.length + s.embeddingsB.length < 10 →
        (step logs s Ev.clickTrain).1.classifierModel =
          some { cfg := buildModel (inputDim s), epochsTrained := 25 }) := by
  refine ⟨fun n => rfl, ?_, ?_⟩
  · intro nA nB
    have hA : oneHot 2 0 = [(1 : ℚ), 0] := by decide
    have hB : oneHot 2 1 = [(0 : ℚ), 1] := by decide
    simp [trainYs, trainLabels, List.map_replicate, hA, hB]
  · intro logs s hen h10
    simp [step, hen, trainStep, h10, fitFinish, trainPrepare, fitConfig]

/-- Witness for C5 at concrete sizes and the ten-sample state. -/
theorem C5_architecture_and_labels_witness :
    (buildModel 1024).layers =
      [LayerSpec.dense 128 Activation.relu (some 1024),
       LayerSpec.dropout (1/4),
       LayerSpec.dense 2 Activation.softmax none] ∧
    trainYs 2 1 = [[1, 0], [1, 0], [0, 1]] ∧
    (step logs0 demoReady Ev.clickTrain).1.classifierModel =
      some { cfg := buildModel (inputDim demoReady), epochsTrained := 25 } := by
  refine ⟨C5_architecture_and_labels.1 1024, ?_,
          C5_architecture_and_labels.2.2 logs0 demoReady (by decide) (by decide)⟩
  rw [C5_architecture_and_labels.2.1 2 1]
  decide

/-- The epoch index carried by a progress notification, if any. -/
def epochOf : OutEv → Option Nat
  | .epochEnd i _ _ => some i
  | _ => none

/-- C6: a train click that passes the minimum-sample check emits exactly
the 25 per-epoch progress notifications of the fit (configured with
`epochs: 25, shuffle: true` and nothing that could stop early), one
notification per epoch carrying the epoch index together with the loss
and accuracy of that epoch, with the epoch indices 0..24 each occurring exactly once
and in strictly increasing order. -/
theorem C6_training_notifications (logs : Nat → ℚ × ℚ) (s : AppState)
    (hen : s.trainDisabled = false)
    (h10 : ¬ s.embeddingsA.length + s.embeddingsB.length < 10) :
    (step logs s Ev.clickTrain).2 =
      (List.range 25).map (fun i => OutEv.epochEnd i (logs i).1 (logs i).2) ∧
    ((step logs s Ev.clickTrain).2.filterMap epochOf) = List.range 25 ∧
    List.Pairwise (· < ·) ((step logs s Ev.clickTrain).2.filterMap epochOf) ∧
    (step logs s Ev.clickTrain).2.length = 25 ∧
    fitConfig.epochs = 25 ∧ fitConfig.shuffle = true := by
  have houts : (step logs s Ev.clickTrain).2 =
      (List.range 25).map (fun i => OutEv.epochEnd i (logs i).1 (logs i).2) := by
    simp [step, hen, trainStep, h10, fitOutputs, fitConfig]
  have hfil : ((step logs s Ev.clickTrain).2.filterMap epochOf) = List.range 25 := by
    rw [houts, List.filterMap_map]
    have : (epochOf ∘ fun i => OutEv.epochEnd i (logs i).1 (logs i).2) =
        fun i => some i := by
      funext i
      rfl
    rw [this]
    simp
  refine ⟨houts, hfil, ?_, ?_, rfl, rfl⟩
  · rw [hfil]
    exact List.pairwise_lt_range 25
  · rw [houts]
    simp

/-- Witness for C6 at the ten-sample state and the fixed loss trace. -/
theorem C6_training_notifications_witness :
    (step logs0 demoReady Ev.clickTrain).2 =
      (List.range 25).map (fun i => OutEv.epochEnd i (logs0 i).1 (logs0 i).2) ∧
    ((step logs0 demoReady Ev.clickTrain).2.filterMap epochOf) = List.range 25 ∧
    (step logs0 demoReady Ev.clickTrain).2.length = 25 := by
  have h := C6_training_notifications logs0 demoReady (by decide) (by decide)
  exact ⟨h.1, h.2.1, h.2.2.2.1⟩

/-- Softmax over any non-empty logit list, with any strictly positive
exponential, yields non-negative entries summing to exactly 1. -/
theorem softmax_props (e : ℚ → ℚ) (he : ∀ t, 0 < e t) (z : List ℚ)
    (hz : z ≠ []) :
    (softmax e z).sum = 1 ∧ ∀ q ∈ softmax e z, 0 ≤ q := by
  have hS : 0 < (z.map e).sum := by
    apply List.sum_pos
    · intro x hx
      obtain ⟨t, _, rfl⟩ := List.mem_map.mp hx
      exact he t
    · simpa using hz
  constructor
  · have hmul : (z.map fun zi => e zi * ((z.map e).sum)⁻¹).sum =
        (z.map e).sum * ((z.map e).sum)⁻¹ := List.sum_map_mul_right z e _
    have hdiv : softmax e z = z.map fun zi => e zi * ((z.map e).sum)⁻¹ := by
      unfold softmax
      simp [div_eq_mul_inv]
    rw [hdiv, hmul, mul_inv_cancel₀ (ne_of_gt hS)]
  · intro q hq
    obtain ⟨t, _, rfl⟩ := List.mem_map.mp hq
    exact le_of_lt (div_pos (he t) hS)

/-- C2: any train click passing the minimum-sample check stores a
classifier built by `buildModel`, whose output layer is a 2-unit softmax;
inference through that architecture — for any weights conforming to the
2-unit output layer, any strictly positive exponential, and any input
vector — yields exactly a pair of non-negative numbers summing to exactly 1
(the ℚ model of the floating-point computation). -/
theorem C2_inference_distribution (logs : Nat → ℚ × ℚ) (s : AppState)
    (hen : s.trainDisabled = false)
    (h10 : ¬ s.embeddingsA.length + s.embeddingsB.length < 10) :
    (step logs s Ev.clickTrain).1.classifierModel =
      some { cfg := buildModel (inputDim s), epochsTrained := 25 } ∧
    outputSoftmaxUnits (buildModel (inputDim s)) = some 2 ∧
    ∀ (e : ℚ → ℚ), (∀ t, 0 < e t) →
      ∀ p : ClassifierWeights, conforms (buildModel (inputDim s)) p →
        ∀ x : List ℚ,
          (predict e p x).length = 2 ∧
          (predict e p x).sum = 1 ∧
          ∀ q ∈ predict e p x, 0 ≤ q := by
  refine ⟨?_, rfl, ?_⟩
  · simp [step, hen, trainStep, h10, fitFinish, trainPrepare, fitConfig]
  · intro e he p hp x
    have hw2 : p.w2.length = 2 := by
      have := hp.1
      simp [outputSoftmaxUnits, buildModel] at this
      omega
    have hb2 : p.b2.length = 2 := by
      have := hp.2
      omega
    have hlen : (denseApply p.w2 p.b2
        (dropoutInfer ((denseApply p.w1 p.b1 x).map relu))).length = 2 := by
      simp [denseApply, hw2, hb2]
    have hne : denseApply p.w2 p.b2
        (dropoutInfer ((denseApply p.w1 p.b1 x).map relu)) ≠ [] := by
      intro hnil
      rw [hnil] at hlen
      simp at hlen
    have hsp := softmax_props e he _ hne
    refine ⟨?_, hsp.1, hsp.2⟩
    simp [predict, softmax, hlen]

/-- Witness for C2 at the ten-sample state, the constant-one exponential,
and concrete conforming weights. -/
theorem C2_inference_distribution_witness :
    (step logs0 demoReady Ev.clickTrain).1.classifierModel =
      some { cfg := buildModel (inputDim demoReady), epochsTrained := 25 } ∧
    (predict (fun _ => 1) { w1 := [[1]], b1 := [0], w2 := [[1], [2]], b2 := [0, 0] } [1]).length = 2 ∧
    (predict (fun _ => 1) { w1 := [[1]], b1 := [0], w2 := [[1], [2]], b2 := [0, 0] } [1]).sum = 1 := by
  have h := C2_inference_distribution logs0 demoReady (by decide) (by decide)
  have h3 := h.2.2 (fun _ => 1) (fun t => by norm_num)
    { w1 := [[1]], b1 := [0], w2 := [[1], [2]], b2 := [0, 0] }
    (by constructor <;> decide) [1]
  exact ⟨h.1, h3.1, h3.2.1⟩

/-- Capture ten samples, train, start predicting, then train again: the
second training completes while the predictor is Running and re-enables the
start button (app.js line 127 is unconditional). -/
def doubleStartPre : List Ev :=
  capture10 ++ [Ev.clickTrain, Ev.clickStart, Ev.clickTrain]

/-- `doubleStartPre` followed by a second start click and a stop click: the
stop clears only the second timer; timer 0 is orphaned and stays active. -/
def doubleStartStop : List Ev :=
  doubleStartPre ++ [Ev.clickStart, Ev.clickStop]

/-- In every reachable state with no trained classifier, the start and stop
buttons are disabled (the start button is enabled only when a training
completes, the stop button only by a start click). -/
def NoClfInv (s : AppState) : Prop :=
  s.classifierModel = none → s.startDisabled = true ∧ s.stopDisabled = true

theorem noClfInv_step (logs : Nat → ℚ × ℚ) (s : AppState) (e : Ev)
    (h : NoClfInv s) : NoClfInv (step logs s e).1 := by
  cases e with
  | clickCaptureA v => exact fun hn => h hn
  | clickCaptureB v => exact fun hn => h hn
  | clickTrain =>
      simp only [step, trainStep]
      split
      · exact h
      · split
        · exact fun hn => h hn
        · intro hn
          simp [fitFinish, trainPrepare] at hn
  | clickStart =>
      simp only [step]
      split
      · exact h
      · intro hn
        rename_i hsd
        simp only [Bool.not_eq_true] at hsd
        have := (h hn).1
        rw [hsd] at this
        exact absurd this (by simp)
  | clickStop =>
      simp only [step]
      split
      · exact h
      · intro hn
        rename_i hsd
        simp only [Bool.not_eq_true] at hsd
        have := (h hn).2
        rw [hsd] at this
        exact absurd this (by simp)
  | tick id =>
      simp only [step, tickStep]
      split
      · exact h
      · exact h

theorem noClfInv_run (logs : Nat → ℚ × ℚ) (evs : List Ev) :
    NoClfInv (run logs init evs) := by
  have H : ∀ (l : List Ev) (s : AppState), NoClfInv s → NoClfInv (run logs s l) := by
    intro l
    induction l with
    | nil => exact fun s h => h
    | cons e l ih => exact fun s h => ih (step logs s e).1 (noClfInv_step logs s e h)
  exact H evs init (fun _ => ⟨rfl, rfl⟩)

/-- C3 counterexample: after training, starting, and training again (all
reachable through enabled controls), the predictor is Running
(`predictInterval = some 0`) and the start control has been re-enabled;
clicking start then is NOT a no-op — it schedules a second periodic timer
and changes the state — refuting the claim that start is guarded while
already Running. -/
theorem C3_counterexample :
    (run logs0 init doubleStartPre).predictInterval = some 0 ∧
    (run logs0 init doubleStartPre).startDisabled = false ∧
    (step logs0 (run logs0 init doubleStartPre) Ev.clickStart).1.predictInterval = some 1 ∧
    (step logs0 (run logs0 init doubleStartPre) Ev.clickStart).1.activeTimers = [0, 1] ∧
    (step logs0 (run logs0 init doubleStartPre) Ev.clickStart).1 ≠
      run logs0 init doubleStartPre := by
  refine ⟨by decide, by decide, by decide, by decide, ?_⟩
  intro heq
  have hproj := congrArg AppState.predictInterval heq
  have h1 : (step logs0 (run logs0 init doubleStartPre) Ev.clickStart).1.predictInterval =
      some 1 := by decide
  have h0 : (run logs0 init doubleStartPre).predictInterval = some 0 := by decide
  rw [h1, h0] at hproj
  simp at hproj

/-- C3 amended: a start click is a no-op exactly while the start control is
disabled; when the control is enabled the click moves the predictor to
Running by scheduling a fresh periodic timer; and in every reachable state
with no trained classifier the control is disabled, so the no-classifier
guard holds.  (The already-Running guard holds only until a training
completes while Running re-enables the control, per the counterexample.) -/
theorem C3_start_guard_amended (logs : Nat → ℚ × ℚ) :
    (∀ s : AppState, s.startDisabled = true → step logs s Ev.clickStart = (s, [])) ∧
    (∀ s : AppState, s.startDisabled = false →
        (step logs s Ev.clickStart).1.predictInterval = some s.nextTimerId ∧
        (step logs s Ev.clickStart).1.activeTimers = s.activeTimers ++ [s.nextTimerId] ∧
        (step logs s Ev.clickStart).1.startDisabled = true ∧
        (step logs s Ev.clickStart).1.stopDisabled = false) ∧
    (∀ evs : List Ev, (run logs init evs).classifierModel = none →
        (run logs init evs).startDisabled = true) := by
  refine ⟨?_, ?_, ?_⟩
  · intro s hd
    simp [step, hd]
  · intro s hd
    simp [step, hd, startStep]
  · intro evs hn
    exact (noClfInv_run logs evs hn).1

/-- Witness for C3 amended: a disabled start click at the initial state is
a no-op, an enabled one after training schedules timer 0, and the empty
run has no classifier and a disabled start control. -/
theorem C3_start_guard_amended_witness :
    step logs0 init Ev.clickStart = (init, []) ∧
    (step logs0 (run logs0 init (capture10 ++ [Ev.clickTrain])) Ev.clickStart).1.predictInterval =
      some (run logs0 init (capture10 ++ [Ev.clickTrain])).nextTimerId ∧
    (run logs0 init []).startDisabled = true := by
  have h := C3_start_guard_amended logs0
  exact ⟨h.1 init (by decide),
         (h.2.1 (run logs0 init (capture10 ++ [Ev.clickTrain])) (by decide)).1,
         h.2.2 [] (by decide)⟩

/-- Every interval id ever handed out is below `nextTimerId`, whether still
registered or referenced by `predictInterval`. -/
def TimerInv (s : AppState) : Prop :=
  (∀ j ∈ s.activeTimers, j < s.nextTimerId) ∧
  (∀ j, s.predictInterval = some j → j < s.nextTimerId)

theorem timerInv_step (logs : Nat → ℚ × ℚ) (s : AppState) (e : Ev)
    (h : TimerInv s) : TimerInv (step logs s e).1 := by
  cases e with
  | clickCaptureA v => exact h
  | clickCaptureB v => exact h
  | clickTrain =>
      simp only [step, trainStep]
      split
      · exact h
      · split
        · exact h
        · exact h
  | clickStart =>
      simp only [step]
      split
      · exact h
      · constructor
        · intro j hj
          simp only [startStep, List.mem_append, List.mem_singleton] at hj
          rcases hj with hj | hj
          · exact Nat.lt_succ_of_lt (h.1 j hj)
          · simp [startStep, hj]
        · intro j hj
          simp only [startStep] at hj
          simp only [Option.some.injEq] at hj
          simp [startStep, ← hj]
  | clickStop =>
      simp only [step]
      split
      · exact h
      · constructor
        · intro j hj
          simp only [stopStep] at hj
          rcases hint : s.predictInterval with _ | id
          · rw [hint] at hj
            exact h.1 j hj
          · rw [hint] at hj
            exact h.1 j (List.mem_of_mem_filter hj)
        · intro j hj
          simp [stopStep] at hj
  | tick id =>
      simp only [step, tickStep]
      split
      · exact h
      · exact h

theorem timerInv_run (logs : Nat → ℚ × ℚ) (evs : List Ev) :
    TimerInv (run logs init evs) := by
  have H : ∀ (l : List Ev) (s : AppState), TimerInv s → TimerInv (run logs s l) := by
    intro l
    induction l with
    | nil => exact fun s h => h
    | cons e l ih => exact fun s h => ih (step logs s e).1 (timerInv_step logs s e h)
  exact H evs init ⟨by simp [init], by simp [init]⟩

/-- Once an interval id is unregistered and below the id counter, one step
keeps it unregistered, keeps it below the counter, and fires no cycle of
it. -/
theorem cancelled_step (logs : Nat → ℚ × ℚ) (s : AppState) (e : Ev) (id : Nat)
    (h1 : id < s.nextTimerId) (h2 : id ∉ s.activeTimers) :
    id < (step logs s e).1.nextTimerId ∧ id ∉ (step logs s e).1.activeTimers ∧
    OutEv.cycleStart id ∉ (step logs s e).2 := by
  cases e with
  | clickCaptureA v => exact ⟨h1, h2, by simp [step]⟩
  | clickCaptureB v => exact ⟨h1, h2, by simp [step]⟩
  | clickTrain =>
      simp only [step, trainStep]
      split
      · exact ⟨h1, h2, by simp⟩
      · split
        · refine ⟨h1, h2, ?_⟩
          simp
        · refine ⟨h1, h2, ?_⟩
          simp [fitOutputs]
  | clickStart =>
      simp only [step]
      split
      · exact ⟨h1, h2, by simp⟩
      · refine ⟨Nat.lt_succ_of_lt h1, ?_, by simp [startStep]⟩
        simp only [startStep, List.mem_append, List.mem_singleton]
        rintro (hj | hj)
        · exact h2 hj
        · exact absurd hj (Nat.ne_of_lt h1)
  | clickStop =>
      simp only [step]
      split
      · exact ⟨h1, h2, by simp⟩
      · refine ⟨h1, ?_, by simp [stopStep]⟩
        simp only [stopStep]
        rcases hint : s.predictInterval with _ | j
        · exact h2
        · intro hmem
          exact h2 (List.mem_of_mem_filter hmem)
  | tick j =>
      simp only [step, tickStep]
      split
      · rename_i hj
        refine ⟨h1, h2, ?_⟩
        simp only [List.mem_singleton]
        intro hc
        rw [show j = id by exact (OutEv.cycleStart.injEq ..).mp hc.symm] at hj
        exact h2 hj
      · exact ⟨h1, h2, by simp⟩

/-- Once an interval id is unregistered and below the id counter, no cycle
of it ever fires again, over any subsequent event sequence. -/
theorem cancelled_trace (logs : Nat → ℚ × ℚ) :
    ∀ (evs : List Ev) (s : AppState) (id : Nat),
      id < s.nextTimerId → id ∉ s.activeTimers →
      OutEv.cycleStart id ∉ trace logs s evs := by
  intro evs
  induction evs with
  | nil => intro s id _ _; simp [trace]
  | cons e evs ih =>
      intro s id h1 h2
      obtain ⟨h1', h2', hout⟩ := cancelled_step logs s e id h1 h2
      simp only [trace, List.mem_append]
      rintro (hc | hc)
      · exact hout hc
      · exact ih (step logs s e).1 id h1' h2' hc

/-- C7 amended: from any reachable state with the stop control enabled, a
stop click moves the predictor to Idle (null interval reference) and clears
the timer the reference names: that timer is unregistered and no cycle of
it ever begins afterwards, over any subsequent event sequence.  (Timers
orphaned by a second start click without an intervening stop are not
referenced and hence not cancelled — they keep firing cycles, per the
counterexample.) -/
theorem C7_stop_cancels_amended (logs : Nat → ℚ × ℚ) (evs0 : List Ev)
    (hstop : (run logs init evs0).stopDisabled = false) :
    (step logs (run logs init evs0) Ev.clickStop).1.predictInterval = none ∧
    ∀ id, (run logs init evs0).predictInterval = some id →
      id ∉ (step logs (run logs init evs0) Ev.clickStop).1.activeTimers ∧
      ∀ evs : List Ev,
        OutEv.cycleStart id ∉
          trace logs (step logs (run logs init evs0) Ev.clickStop).1 evs := by
  have hstep : step logs (run logs init evs0) Ev.clickStop =
      stopStep (run logs init evs0) := by
    simp [step, hstop]
  rw [hstep]
  refine ⟨rfl, ?_⟩
  intro id hid
  have hnot : id ∉ (stopStep (run logs init evs0)).1.activeTimers := by
    simp only [stopStep, hid]
    intro hmem
    have := List.mem_filter.mp hmem
    simp at this
  refine ⟨hnot, ?_⟩
  intro evs
  apply cancelled_trace logs evs _ id _ hnot
  have hbound := (timerInv_run logs evs0).2 id hid
  simpa [stopStep] using hbound

/-- Witness for C7 amended after one start: stop goes Idle, unregisters
timer 0, and a following firing of timer 0 yields no cycle. -/
theorem C7_stop_cancels_amended_witness :
    (step logs0 (run logs0 init demoStartTrace) Ev.clickStop).1.predictInterval = none ∧
    0 ∉ (step logs0 (run logs0 init demoStartTrace) Ev.clickStop).1.activeTimers ∧
    OutEv.cycleStart 0 ∉
      trace logs0 (step logs0 (run logs0 init demoStartTrace) Ev.clickStop).1 [Ev.tick 0] := by
  have h := C7_stop_cancels_amended logs0 demoStartTrace (by decide)
  have h2 := h.2 0 (by decide)
  exact ⟨h.1, h2.1, h2.2 [Ev.tick 0]⟩

/-- C7 counterexample: run `doubleStartStop` (train, start, retrain, start
again, stop — all through enabled controls).  The stop click has moved the
predictor to Idle and disabled the stop control, yet the orphaned first
timer is still registered, and its next firing begins a prediction cycle —
refuting the claim that after stop no new cycle ever begins. -/
theorem C7_counterexample :
    (run logs0 init doubleStartStop).predictInterval = none ∧
    (run logs0 init doubleStartStop).stopDisabled = true ∧
    (run logs0 init doubleStartStop).activeTimers = [0] ∧
    trace logs0 (run logs0 init doubleStartStop) [Ev.tick 0] = [OutEv.cycleStart 0] := by
  decide

end App
